import Mathlib

/-!
Shallow embedding of `app/services/auth.server.ts` from the remix-boilerplate
repository: the password hasher (`hash`, `compare`), the form login/signup
strategy, the verification-code issuance, and the Google upsert strategy.

Machine-level collaborators (Node `crypto.scrypt`, Prisma, the Resend mailer,
zod) are modelled explicitly:
  * `scrypt` is an abstract key-derivation function parameter
    `kdf : String → String → List Nat` (password, salt string → derived key
    bytes); theorems assume only what Node guarantees: the derived key has
    `keyLength` bytes, each `< 256`.
  * randomness (the salt of `hash`, the generated verification code) is made
    an explicit argument.
  * the Prisma user table is a `List User`, the verification-code table a
    `List VerificationCode`; `prisma.$transaction` is a combinator that rolls
    the state back when its body throws.
  * zod's `safeParse` of the payload schema is embedded over a small universe
    of JavaScript values (`RawValue`).
-/

deriving instance DecidableEq for Except

namespace RemixAuth

/-- Lowercase hex digits, as produced by Node's `Buffer.toString("hex")`. -/
def hexDigits : List Char := "0123456789abcdef".data

/-- The hex digit character for a value `n < 16`. -/
def toHexDigit (n : Nat) : Char := hexDigits.getD n '0'

/-- One byte rendered as two lowercase hex characters. -/
def byteToHex (b : Nat) : List Char := [toHexDigit (b / 16), toHexDigit (b % 16)]

/-- Model of `Buffer.toString("hex")` on a byte list. -/
def bytesToHexChars (bs : List Nat) : List Char := bs.flatMap byteToHex

/-- Numeric value of a hex digit character, `none` for a non-hex character. -/
def hexVal (c : Char) : Option Nat :=
  if '0' ≤ c ∧ c ≤ '9' then some (c.toNat - '0'.toNat)
  else if 'a' ≤ c ∧ c ≤ 'f' then some (c.toNat - 'a'.toNat + 10)
  else if 'A' ≤ c ∧ c ≤ 'F' then some (c.toNat - 'A'.toNat + 10)
  else none

/-- Model of `Buffer.from(s, "hex")`: decodes leading pairs of hex digits, stopping at
the first pair that is not two hex digits (Node truncates, it does not throw,
on malformed hex strings). -/
def hexDecode : List Char → List Nat
  | c1 :: c2 :: rest =>
    match hexVal c1, hexVal c2 with
    | some h, some l => (16 * h + l) :: hexDecode rest
    | _, _ => []
  | _ => []

/-- JavaScript `String.prototype.split` with a one-character separator:
always returns at least one (possibly empty) part. -/
def jsSplit (sep : Char) : List Char → List (List Char)
  | [] => [[]]
  | c :: rest =>
    match jsSplit sep rest with
    | [] => [[]]
    | h :: t => if c = sep then [] :: h :: t else (c :: h) :: t

/-- Embeds `const keyLength = 32;`. -/
def keyLength : Nat := 32

/-- Failure of the `compare` promise, mirroring the two ways the source can
throw: `Buffer.from(undefined, "hex")` when the stored hash has no `.`
separator (a `TypeError`), and `crypto.timingSafeEqual` on buffers of
different byte lengths (a `RangeError`). -/
inductive CompareFailure
  | hexOfUndefined
  | lengthMismatch
deriving DecidableEq

/-- Model of `crypto.timingSafeEqual`: throws (`.error .lengthMismatch`) when the two
buffers have different lengths, otherwise a constant-time equality check. -/
def timingSafeEqual (a b : List Nat) : Except CompareFailure Bool :=
  if a.length = b.length then .ok (a == b) else .error .lengthMismatch

/-- The source function `hash`: the random 16-byte salt is made an explicit
argument `saltBytes`; `kdf` stands for `crypto.scrypt` with `keyLength = 32`.
Returns `` `${salt}.${derivedKey.toString("hex")}` `` where `salt` is the hex
string of `saltBytes`. -/
def hash (kdf : String → String → List Nat) (saltBytes : List Nat)
    (password : String) : String :=
  let salt : String := String.mk (bytesToHexChars saltBytes)
  salt ++ "." ++ String.mk (bytesToHexChars (kdf password salt))

/-- The source function `compare`: split the stored hash on `"."`; `salt` is the
part before the first dot, `hashKey` the part after it (`none` when there is
no dot, i.e. JavaScript `undefined`, making `Buffer.from` throw); re-derive
the key from the supplied password and compare with `timingSafeEqual`. -/
def compare (kdf : String → String → List Nat) (password storedHash : String) :
    Except CompareFailure Bool :=
  let parts := jsSplit '.' storedHash.data
  let salt := parts.headD []
  match parts[1]? with
  | none => .error .hexOfUndefined
  | some hashKey =>
    let hashKeyBuff := hexDecode hashKey
    let derivedKey := kdf password (String.mk salt)
    timingSafeEqual hashKeyBuff derivedKey

/-- Concrete stand-in key-derivation function used to instantiate witnesses:
32 bytes, each the sum of the password and salt lengths mod 256. -/
def toyKdf (password salt : String) : List Nat :=
  List.replicate keyLength ((password.length + salt.length) % 256)

/-- A row of the Prisma `User` table, as the source reads and writes it
(`id`, `email`, nullable `password`, `fullName`, `emailVerified`,
`isGoogleSignUp`). -/
structure User where
  id : Nat
  email : String
  password : Option String
  fullName : String
  emailVerified : Bool
  isGoogleSignUp : Bool
deriving DecidableEq

/-- A row of the Prisma `VerificationCode` table (`code`, `userId`,
`expires` in milliseconds). -/
structure VerificationCode where
  code : String
  userId : Nat
  expires : Nat
deriving DecidableEq

/-- The universe of JavaScript values a payload field can hold, as far as the
zod schema distinguishes them: absent (`undefined`), a string, the booleans,
or anything else. -/
inductive RawValue
  | absent
  | str (s : String)
  | boolTrue
  | boolFalse
  | other
deriving DecidableEq

/-- The `context` object handed to `payloadSchema.safeParse`, one `RawValue`
per schema key. -/
structure RawContext where
  email : RawValue
  password : RawValue
  fullName : RawValue
  tocAccepted : RawValue
  type : RawValue
deriving DecidableEq

/-- The `type` discriminant: `z.enum(["login", "signup"])`. -/
inductive PayloadType
  | login
  | signup
deriving DecidableEq

/-- The successfully parsed payload (`parsedData.data`). -/
structure Payload where
  email : String
  password : String
  fullName : Option String
  tocAccepted : Option Unit
  type : PayloadType
deriving DecidableEq

/-- Field validator `z.string()`: accepts exactly the string values (any length, the empty
string included). -/
def parseStringField : RawValue → Option String
  | .str s => some s
  | _ => none

/-- Field validator `z.string().optional()`: absent is accepted as `undefined`. -/
def parseOptionalStringField : RawValue → Option (Option String)
  | .absent => some none
  | .str s => some (some s)
  | _ => none

/-- Field validator `z.literal(true).optional()`: only the literal `true` or absence. -/
def parseOptionalTrueField : RawValue → Option (Option Unit)
  | .absent => some none
  | .boolTrue => some (some ())
  | _ => none

/-- Field validator `z.enum(["login", "signup"])`. -/
def parseTypeField : RawValue → Option PayloadType
  | .str s => if s = "login" then some .login
              else if s = "signup" then some .signup
              else none
  | _ => none

/-- Embeds `payloadSchema.safeParse`: `some payload` for success, `none` when zod
reports a validation error. -/
def safeParse (ctx : RawContext) : Option Payload := do
  let email ← parseStringField ctx.email
  let password ← parseStringField ctx.password
  let fullName ← parseOptionalStringField ctx.fullName
  let toc ← parseOptionalTrueField ctx.tocAccepted
  let ty ← parseTypeField ctx.type
  pure ⟨email, password, fullName, toc, ty⟩

/-- Outcome of the form-strategy promise. The first four constructors are the
errors the source actually throws: zod failure (`"Parsing Failed"`), a wrong
password (`"INVALID_PASSWORD"`), the fall-through `"Login failed"`, a rejected
`compare` promise, and Prisma's unique-constraint violation (P2002) from
`user.create` on a duplicate email. `conflictError` is the `ConflictError` of
the specification's error taxonomy; the source never constructs it — it is
declared here only so that statements about that taxonomy can be written. -/
inductive FormError
  | parsingFailed
  | invalidPassword
  | loginFailed
  | compareRejected (e : CompareFailure)
  | uniqueConstraint
  | conflictError
deriving DecidableEq

/-- The form strategy (`formStrategy` in the source), run against a user
table `db`. `kdf` and `saltBytes` feed the hasher on the signup branch,
`nextId` is the id Prisma would assign to a created row. Returns the
strategy's outcome and the user table afterwards.

Login: `findFirst` by email; if a user is found, `compare` the supplied
password against `user?.password || ""` — `.ok true` returns the user,
`.ok false` throws `INVALID_PASSWORD`, a rejected compare propagates; if no
user is found control falls through to `throw new Error("Login failed")`.

Signup: hash the password, `user.create` with `fullName: "test"` (Prisma
rejects a duplicate email with a unique-constraint error; `emailVerified`
and `isGoogleSignUp` take their schema defaults, `false`). The
fire-and-forget `sendVerificationCode` call touches only the
verification-code table and is modelled separately. -/
def formStrategyRun (kdf : String → String → List Nat) (saltBytes : List Nat)
    (nextId : Nat) (db : List User) (ctx : RawContext) :
    Except FormError User × List User :=
  match safeParse ctx with
  | some pd =>
    match pd.type with
    | .login =>
      match db.find? (fun u => u.email == pd.email) with
      | some user =>
        match compare kdf pd.password (user.password.getD "") with
        | .ok true => (.ok user, db)
        | .ok false => (.error .invalidPassword, db)
        | .error e => (.error (.compareRejected e), db)
      | none => (.error .loginFailed, db)
    | .signup =>
      let hashedPassword := hash kdf saltBytes pd.password
      if db.any (fun u => u.email == pd.email) then
        (.error .uniqueConstraint, db)
      else
        let user : User :=
          { id := nextId, email := pd.email, password := some hashedPassword,
            fullName := "test", emailVerified := false, isGoogleSignUp := false }
        (.ok user, db ++ [user])
  | none => (.error .parsingFailed, db)

/-- Builds the strategy `context` from typed parts: email and password as
strings, the optional fields present or absent, and the `type` tag verbatim. -/
def mkCtx (e p : String) (fn : Option String) (toc : Bool) (ty : String) :
    RawContext :=
  { email := .str e, password := .str p,
    fullName := match fn with | some s => .str s | none => .absent,
    tocAccepted := if toc then .boolTrue else .absent,
    type := .str ty }

/-- Modelled from the spec: the Mailer collaborator (`resend.emails.send`,
whose implementation is not part of this fragment) reports
"success/failure" as the resolved value of its promise — delivery failure is
a returned error result, not a rejection. The source ignores the resolved
value entirely. -/
inductive MailOutcome
  | success
  | failure
deriving DecidableEq

/-- Model of `prisma.$transaction` with an interactive body: if the body throws, every
write inside it is rolled back (the state reverts to the state at entry);
otherwise the body's final state is committed. -/
def prismaTransaction {σ ε : Type} (body : σ → Except ε σ) (s : σ) :
    Except ε σ × σ :=
  match body s with
  | .ok s' => (.ok s', s')
  | .error e => (.error e, s)

/-- The body of `sendVerificationCode`'s transaction: delete every code row
of the user, insert the new row with expiry `now + 1000 * 60 * 20` (the
source comment says 10 minutes; the computed value is 20), then await the
mailer. The mailer's resolved outcome (`mail`) is not inspected, so the body
never throws at the send step. -/
def sendCodeTxBody (now : Nat) (code : String) (mail : MailOutcome)
    (userId : Nat) (codes : List VerificationCode) :
    Except Unit (List VerificationCode) :=
  let afterDelete := codes.filter (fun c => !(c.userId == userId))
  let afterCreate := afterDelete ++ [⟨code, userId, now + 1000 * 60 * 20⟩]
  let _sendResult := mail
  .ok afterCreate

/-- The source function `sendVerificationCode`, run against the verification-code table: the
generated 8-digit code and the clock are explicit arguments, and the whole
body runs inside `prisma.$transaction`. -/
def sendVerificationCodeRun (now : Nat) (code : String) (mail : MailOutcome)
    (u : User) (codes : List VerificationCode) :
    Except Unit (List VerificationCode) × List VerificationCode :=
  prismaTransaction (sendCodeTxBody now code mail u.id) codes

/-- The Google strategy's verify callback: `prisma.user.upsert` keyed on the
profile email — when a user with that email exists the update object is `{}`
(returns the row unchanged), otherwise a row is created with
`emailVerified: true`, `fullName: profile.displayName`,
`isGoogleSignUp: true` and no password. -/
def googleStrategyRun (db : List User) (nextId : Nat)
    (profileEmail profileName : String) : User × List User :=
  match db.find? (fun u => u.email == profileEmail) with
  | some u => (u, db)
  | none =>
    let u : User :=
      { id := nextId, email := profileEmail, password := none,
        fullName := profileName, emailVerified := true, isGoogleSignUp := true }
    (u, db ++ [u])

/-- The row the Google upsert creates when no account with the profile email
exists (the `create` object of `prisma.user.upsert`). -/
def googleNewUser (nextId : Nat) (e n : String) : User :=
  { id := nextId, email := e, password := none, fullName := n,
    emailVerified := true, isGoogleSignUp := true }

/-- Fixture: a concrete zero salt. -/
def salt0 : List Nat := List.replicate 16 0

/-- Fixture: a credential-signup account whose stored hash is
`hash "secret123"` under the stand-in key-derivation function. -/
def alice : User :=
  { id := 1, email := "a@x.com",
    password := some (hash toyKdf salt0 "secret123"),
    fullName := "Alice", emailVerified := true, isGoogleSignUp := false }

/-- Fixture: an account provisioned through the Google strategy — no stored
password hash. -/
def gUser : User :=
  { id := 2, email := "g@x.com", password := none,
    fullName := "G", emailVerified := true, isGoogleSignUp := true }

/-! Helper lemmas -/

theorem toHexDigit_ne_dot (n : Nat) : toHexDigit n ≠ '.' := by
  by_cases h : n < 16
  · have h16 : ∀ m : Fin 16, toHexDigit m.val ≠ '.' := by decide
    exact h16 ⟨n, h⟩
  · unfold toHexDigit
    rw [List.getD_eq_default]
    · decide
    · have hlen : hexDigits.length = 16 := by decide
      omega

theorem hexVal_toHexDigit (d : Nat) (hd : d < 16) : hexVal (toHexDigit d) = some d := by
  have h16 : ∀ m : Fin 16, hexVal (toHexDigit m.val) = some m.val := by decide
  exact h16 ⟨d, hd⟩

theorem dot_not_mem_bytesToHexChars (bs : List Nat) : '.' ∉ bytesToHexChars bs := by
  intro h
  rcases List.mem_flatMap.mp h with ⟨b, _, hmem⟩
  simp only [byteToHex, List.mem_cons, List.not_mem_nil, or_false] at hmem
  rcases hmem with h1 | h1 <;> exact toHexDigit_ne_dot _ h1.symm

theorem jsSplit_ne_nil (sep : Char) (l : List Char) : jsSplit sep l ≠ [] := by
  cases l with
  | nil => simp [jsSplit]
  | cons c rest =>
    simp only [jsSplit]
    cases h : jsSplit sep rest with
    | nil => simp
    | cons hd tl => by_cases hc : c = sep <;> simp [hc]

theorem jsSplit_no_sep (sep : Char) (l : List Char) (h : sep ∉ l) :
    jsSplit sep l = [l] := by
  induction l with
  | nil => rfl
  | cons c rest ih =>
    have hc : ¬ c = sep := fun e => h (e ▸ List.mem_cons_self c rest)
    have hrest : sep ∉ rest := fun m => h (List.mem_cons_of_mem _ m)
    simp [jsSplit, ih hrest, hc]

theorem jsSplit_sep_append (sep : Char) (l1 l2 : List Char) (h : sep ∉ l1) :
    jsSplit sep (l1 ++ sep :: l2) = l1 :: jsSplit sep l2 := by
  induction l1 with
  | nil =>
    simp only [List.nil_append, jsSplit]
    cases hs : jsSplit sep l2 with
    | nil => exact absurd hs (jsSplit_ne_nil sep l2)
    | cons hd tl => simp
  | cons c rest ih =>
    have hc : ¬ c = sep := fun e => h (e ▸ List.mem_cons_self c rest)
    have hrest : sep ∉ rest := fun m => h (List.mem_cons_of_mem _ m)
    simp only [List.cons_append, jsSplit, List.append_eq]
    rw [ih hrest]
    simp [hc]

theorem hexDecode_bytesToHexChars (bs : List Nat) (h : ∀ b ∈ bs, b < 256) :
    hexDecode (bytesToHexChars bs) = bs := by
  induction bs with
  | nil => rfl
  | cons b rest ih =>
    have hb : b < 256 := h b (List.mem_cons_self _ _)
    have hdiv : b / 16 < 16 := Nat.div_lt_of_lt_mul (by omega)
    have hmod : b % 16 < 16 := Nat.mod_lt _ (by norm_num)
    have hrest : ∀ x ∈ rest, x < 256 := fun x hx => h x (List.mem_cons_of_mem _ hx)
    simp only [bytesToHexChars, List.flatMap_cons, byteToHex, List.cons_append,
      List.nil_append, hexDecode, hexVal_toHexDigit _ hdiv, hexVal_toHexDigit _ hmod]
    rw [Nat.div_add_mod b 16]
    exact congrArg (b :: ·) (ih hrest)

theorem hash_data (kdf : String → String → List Nat) (saltBytes : List Nat)
    (p : String) :
    (hash kdf saltBytes p).data =
      bytesToHexChars saltBytes ++ '.' ::
        bytesToHexChars (kdf p (String.mk (bytesToHexChars saltBytes))) := by
  simp [hash, String.data_append]

/-- Evaluation of `compare` on a well-formed stored hash `l1 ++ "." ++ l2` (no dot in
either part) reduces to the timing-safe comparison of the decoded stored key
with the re-derived key. -/
theorem compare_split (kdf : String → String → List Nat) (p s : String)
    (l1 l2 : List Char) (hdata : s.data = l1 ++ '.' :: l2)
    (h1 : '.' ∉ l1) (h2 : '.' ∉ l2) :
    compare kdf p s = timingSafeEqual (hexDecode l2) (kdf p (String.mk l1)) := by
  simp only [compare]
  rw [hdata, jsSplit_sep_append _ _ _ h1, jsSplit_no_sep _ _ h2]
  rfl

/-! Claim theorems -/

/-- C1: round-trip of the credential hasher — for every non-empty plaintext
password `p` and every salt (the random bytes `hash` draws),
`compare p (hash p)` resolves to `true`. The key-derivation function is
abstract; only the byte-ness of its output (each derived byte `< 256`, as
`crypto.scrypt` guarantees) is used. -/
theorem C1_compare_hash_roundtrip (kdf : String → String → List Nat)
    (hbyte : ∀ p s, ∀ b ∈ kdf p s, b < 256)
    (saltBytes : List Nat) (p : String) (hp : p ≠ "") :
    compare kdf p (hash kdf saltBytes p) = .ok true := by
  rw [compare_split kdf p _ _ _ (hash_data kdf saltBytes p)
        (dot_not_mem_bytesToHexChars _) (dot_not_mem_bytesToHexChars _)]
  rw [hexDecode_bytesToHexChars _ (hbyte p _)]
  unfold timingSafeEqual
  simp

/-- Witness for C1 at `p = "abc"`, a zero salt, and the concrete stand-in
key-derivation function. -/
theorem C1_compare_hash_roundtrip_witness :
    ("abc" : String) ≠ "" ∧
    compare toyKdf "abc" (hash toyKdf (List.replicate 16 0) "abc") = .ok true :=
  ⟨by decide,
   C1_compare_hash_roundtrip toyKdf
     (fun _ _ b hb => by
       have hb' := List.eq_of_mem_replicate hb
       subst hb'
       exact Nat.mod_lt _ (by norm_num))
     (List.replicate 16 0) "abc" (by decide)⟩

/-- C2 (counterexample): on the stored hash `"deadbeef"` (no `.` separator)
`compare` does not resolve to `false` — the promise rejects, because
`hashKey` is `undefined` and `Buffer.from(undefined, "hex")` throws; likewise
`"ab.cd"` (a 2-byte key part) makes `crypto.timingSafeEqual` throw a
`RangeError` instead of resolving to `false`. -/
theorem C2_counterexample :
    compare toyKdf "x" "deadbeef" = .error .hexOfUndefined ∧
    compare toyKdf "x" "ab.cd" = .error .lengthMismatch ∧
    (Except.error CompareFailure.hexOfUndefined : Except CompareFailure Bool) ≠ .ok false ∧
    (Except.error CompareFailure.lengthMismatch : Except CompareFailure Bool) ≠ .ok false := by
  decide

/-- C2 (amended): on a malformed stored hash `compare` rejects rather than
resolving to `false` — with no `.` separator it rejects with the
`Buffer.from(undefined)` `TypeError`, and with a derived-key part whose
decoded length differs from 32 bytes the `timingSafeEqual` length check
throws a `RangeError`. -/
theorem C2_compare_malformed (kdf : String → String → List Nat)
    (hlen : ∀ p s, (kdf p s).length = keyLength) (p s : String) :
    ('.' ∉ s.data → compare kdf p s = .error .hexOfUndefined) ∧
    (∀ l1 l2, s.data = l1 ++ '.' :: l2 → '.' ∉ l1 → '.' ∉ l2 →
      (hexDecode l2).length ≠ keyLength →
      compare kdf p s = .error .lengthMismatch) := by
  constructor
  · intro hnd
    simp only [compare]
    rw [jsSplit_no_sep _ _ hnd]
    rfl
  · intro l1 l2 hdata h1 h2 hki
    rw [compare_split kdf p s l1 l2 hdata h1 h2]
    unfold timingSafeEqual
    rw [hlen p (String.mk l1), if_neg hki]

/-- Witness for C2 (amended) at the two malformed hashes `"deadbeef"` and
`"ab.cd"`. -/
theorem C2_compare_malformed_witness :
    compare toyKdf "x" "deadbeef" = .error .hexOfUndefined ∧
    compare toyKdf "x" "ab.cd" = .error .lengthMismatch :=
  ⟨(C2_compare_malformed toyKdf (fun _ _ => by simp [toyKdf]) "x" "deadbeef").1
     (by decide),
   (C2_compare_malformed toyKdf (fun _ _ => by simp [toyKdf]) "x" "ab.cd").2
     ['a', 'b'] ['c', 'd'] (by decide) (by decide) (by decide) (by decide)⟩

theorem safeParse_mkCtx_login (e p : String) (fn : Option String) (toc : Bool) :
    safeParse (mkCtx e p fn toc "login") =
      some ⟨e, p, fn, if toc then some () else none, .login⟩ := by
  cases fn <;> cases toc <;> rfl

theorem safeParse_mkCtx_signup (e p : String) (fn : Option String) (toc : Bool) :
    safeParse (mkCtx e p fn toc "signup") =
      some ⟨e, p, fn, if toc then some () else none, .signup⟩ := by
  cases fn <;> cases toc <;> rfl

/-- Evaluation of `compare` against an empty stored hash (the `user?.password || ""` value
of a password-less account) rejects: `"".split(".")` is `[""]`, so `hashKey`
is `undefined`. -/
theorem compare_empty_hash (kdf : String → String → List Nat) (p : String) :
    compare kdf p "" = .error .hexOfUndefined := rfl

/-- C3 (counterexample): a login against an empty user table throws
`Error("Login failed")`, while a login against a present account with a
wrong password throws `Error("INVALID_PASSWORD")` — two differently shaped
errors, refuting enumeration resistance. -/
theorem C3_counterexample :
    (formStrategyRun toyKdf salt0 9 []
        (mkCtx "a@x.com" "wrong" none false "login")).fst =
      .error .loginFailed ∧
    (formStrategyRun toyKdf salt0 9 [alice]
        (mkCtx "a@x.com" "wrong" none false "login")).fst =
      .error .invalidPassword ∧
    FormError.loginFailed ≠ FormError.invalidPassword := by
  decide

/-- C3 (amended): the two failure modes of the login branch are differently
shaped — an unknown email falls through to `Error("Login failed")`, while a
known email with a non-matching password throws
`Error("INVALID_PASSWORD")`. -/
theorem C3_login_error_shapes (kdf : String → String → List Nat)
    (saltBytes : List Nat) (nextId : Nat) (db : List User)
    (e p : String) (fn : Option String) (toc : Bool) :
    (db.find? (fun u => u.email == e) = none →
      formStrategyRun kdf saltBytes nextId db (mkCtx e p fn toc "login") =
        (.error .loginFailed, db)) ∧
    (∀ u, db.find? (fun u' => u'.email == e) = some u →
      compare kdf p (u.password.getD "") = .ok false →
      formStrategyRun kdf saltBytes nextId db (mkCtx e p fn toc "login") =
        (.error .invalidPassword, db)) ∧
    FormError.loginFailed ≠ FormError.invalidPassword := by
  refine ⟨?_, ?_, by decide⟩
  · intro hfind
    simp only [formStrategyRun, safeParse_mkCtx_login]
    rw [hfind]
  · intro u hfind hcmp
    simp only [formStrategyRun, safeParse_mkCtx_login]
    rw [hfind]
    simp only [hcmp]

/-- Witness for C3 (amended): both branches exercised concretely. -/
theorem C3_login_error_shapes_witness :
    formStrategyRun toyKdf salt0 9 [] (mkCtx "b@x.com" "pw" none false "login") =
      (.error .loginFailed, []) ∧
    formStrategyRun toyKdf salt0 9 [alice]
        (mkCtx "a@x.com" "wrong" none false "login") =
      (.error .invalidPassword, [alice]) :=
  ⟨(C3_login_error_shapes toyKdf salt0 9 [] "b@x.com" "pw" none false).1
     (by decide),
   (C3_login_error_shapes toyKdf salt0 9 [alice] "a@x.com" "wrong" none false).2.1
     alice (by decide) (by decide)⟩

/-- C4: an account provisioned through the Google strategy has no stored
password (`password = none`), and the form strategy never resolves
successfully with such an account: on login, `compare` against
`user?.password || "" = ""` rejects, and a signup always creates a row with
a `some` password. -/
theorem C4_provider_account_never_authenticated
    (kdf : String → String → List Nat) (saltBytes : List Nat) (nextId : Nat)
    (db : List User) (ctx : RawContext) (u : User) (hu : u.password = none) :
    (formStrategyRun kdf saltBytes nextId db ctx).fst ≠ .ok u := by
  intro hok
  unfold formStrategyRun at hok
  split at hok
  case h_2 => simp at hok
  case h_1 pd hparse =>
    split at hok
    case h_1 =>
      split at hok
      case h_1 user hfind =>
        split at hok
        case h_1 hcmp =>
          have huser : user = u := by simpa using hok
          subst huser
          rw [hu, Option.getD_none, compare_empty_hash] at hcmp
          exact Except.noConfusion hcmp
        case h_2 => simp at hok
        case h_3 => simp at hok
      case h_2 => simp at hok
    case h_2 =>
      by_cases hdup : db.any (fun u' => u'.email == pd.email)
      · rw [if_pos hdup] at hok
        simp at hok
      · rw [if_neg hdup] at hok
        simp only [Prod.fst, Except.ok.injEq] at hok
        rw [← hok] at hu
        exact Option.noConfusion hu

/-- Witness for C4: the Google-provisioned fixture account is never the
successful outcome of a credential login with password `"pw"`. -/
theorem C4_provider_account_never_authenticated_witness :
    (formStrategyRun toyKdf salt0 9 [gUser]
        (mkCtx "g@x.com" "pw" none false "login")).fst ≠ .ok gUser :=
  C4_provider_account_never_authenticated toyKdf salt0 9 [gUser]
    (mkCtx "g@x.com" "pw" none false "login") gUser rfl

/-- C5 (counterexample): signing up with the email of the existing fixture
account fails with Prisma's raw unique-constraint error (P2002), which is not
the specification's `ConflictError`; the user table is left unchanged. -/
theorem C5_counterexample :
    (formStrategyRun toyKdf salt0 9 [alice]
        (mkCtx "a@x.com" "pw2" none false "signup")).fst =
      .error .uniqueConstraint ∧
    (formStrategyRun toyKdf salt0 9 [alice]
        (mkCtx "a@x.com" "pw2" none false "signup")).snd = [alice] ∧
    ((Except.error FormError.uniqueConstraint : Except FormError User) ≠
      .error .conflictError) := by
  decide

/-- C5 (amended): duplicate-email signup fails with the unshaped Prisma
unique-constraint violation from `user.create` — not with a `ConflictError`
(the source never constructs one) — and no duplicate row is created (the
table is returned unchanged). -/
theorem C5_duplicate_signup (kdf : String → String → List Nat)
    (saltBytes : List Nat) (nextId : Nat) (db : List User)
    (e p : String) (fn : Option String) (toc : Bool)
    (hdup : db.any (fun u => u.email == e) = true) :
    formStrategyRun kdf saltBytes nextId db (mkCtx e p fn toc "signup") =
      (.error .uniqueConstraint, db) ∧
    FormError.uniqueConstraint ≠ FormError.conflictError := by
  refine ⟨?_, by decide⟩
  simp only [formStrategyRun, safeParse_mkCtx_signup]
  simp [hdup]

/-- Witness for C5 (amended) on the fixture table. -/
theorem C5_duplicate_signup_witness :
    formStrategyRun toyKdf salt0 9 [alice]
        (mkCtx "a@x.com" "other" none false "signup") =
      (.error .uniqueConstraint, [alice]) ∧
    FormError.uniqueConstraint ≠ FormError.conflictError :=
  C5_duplicate_signup toyKdf salt0 9 [alice] "a@x.com" "other" none false
    (by decide)

/-- C6 (counterexample): a payload whose password is the empty string passes
`payloadSchema.safeParse` on both the login and the signup shape — validation
does not reject it. -/
theorem C6_counterexample :
    (safeParse (mkCtx "a@x.com" "" none false "login")).isSome = true ∧
    (safeParse (mkCtx "a@x.com" "" none false "signup")).isSome = true := by
  decide

/-- C6 (amended): `z.string()` places no lower bound on length, so the empty
password passes payload validation on both branches, and on the signup branch
the hasher is then invoked on the empty string — the created row stores
`hash("")`. -/
theorem C6_empty_password_accepted (kdf : String → String → List Nat)
    (saltBytes : List Nat) (nextId : Nat) (db : List User) (e : String)
    (fn : Option String) (toc : Bool)
    (hnew : db.any (fun u => u.email == e) = false) :
    safeParse (mkCtx e "" fn toc "login") =
      some ⟨e, "", fn, if toc then some () else none, .login⟩ ∧
    safeParse (mkCtx e "" fn toc "signup") =
      some ⟨e, "", fn, if toc then some () else none, .signup⟩ ∧
    ∃ u, formStrategyRun kdf saltBytes nextId db (mkCtx e "" fn toc "signup") =
        (.ok u, db ++ [u]) ∧
      u.password = some (hash kdf saltBytes "") := by
  refine ⟨safeParse_mkCtx_login e "" fn toc, safeParse_mkCtx_signup e "" fn toc,
    ⟨{ id := nextId, email := e, password := some (hash kdf saltBytes ""),
       fullName := "test", emailVerified := false, isGoogleSignUp := false },
     ?_, rfl⟩⟩
  simp only [formStrategyRun, safeParse_mkCtx_signup]
  simp [hnew]

/-- Witness for C6 (amended) on an empty user table. -/
theorem C6_empty_password_accepted_witness :
    safeParse (mkCtx "a@x.com" "" none false "login") =
      some ⟨"a@x.com", "", none, none, .login⟩ ∧
    safeParse (mkCtx "a@x.com" "" none false "signup") =
      some ⟨"a@x.com", "", none, none, .signup⟩ ∧
    ∃ u, formStrategyRun toyKdf salt0 9 []
          (mkCtx "a@x.com" "" none false "signup") = (.ok u, [] ++ [u]) ∧
      u.password = some (hash toyKdf salt0 "") :=
  C6_empty_password_accepted toyKdf salt0 9 [] "a@x.com" none false (by decide)

/-- C10: every successful signup stores the hard-coded display name
`"test"`; the payload's `fullName` field (present or not) is never used. -/
theorem C10_signup_fullName_constant (kdf : String → String → List Nat)
    (saltBytes : List Nat) (nextId : Nat) (db : List User)
    (e p : String) (fn : Option String) (toc : Bool)
    (hnew : db.any (fun u => u.email == e) = false) :
    ∃ u, formStrategyRun kdf saltBytes nextId db (mkCtx e p fn toc "signup") =
        (.ok u, db ++ [u]) ∧
      u.fullName = "test" := by
  refine ⟨{ id := nextId, email := e, password := some (hash kdf saltBytes p),
            fullName := "test", emailVerified := false, isGoogleSignUp := false },
    ?_, rfl⟩
  simp only [formStrategyRun, safeParse_mkCtx_signup]
  simp [hnew]

/-- Witness for C10: the payload carries `fullName = "Bob"`, the created row
still has `fullName = "test"`. -/
theorem C10_signup_fullName_constant_witness :
    ∃ u, formStrategyRun toyKdf salt0 9 []
          (mkCtx "b@x.com" "pw" (some "Bob") true "signup") =
        (.ok u, [] ++ [u]) ∧
      u.fullName = "test" :=
  C10_signup_fullName_constant toyKdf salt0 9 [] "b@x.com" "pw" (some "Bob")
    true (by decide)

/-- C7: delivery failure does not roll back the verification code's
persistence. The Mailer is modelled from the spec (its implementation is not
part of this fragment): `send` resolves with a success/failure outcome — the
resend client reports failure as a returned error value, not a rejection —
and the source ignores the resolved value, so a failed delivery leaves the
transaction committed with the freshly inserted row in place. -/
theorem C7_delivery_failure_keeps_code (now : Nat) (code : String) (u : User)
    (codes : List VerificationCode) :
    (sendVerificationCodeRun now code .failure u codes).snd =
      codes.filter (fun c => !(c.userId == u.id)) ++
        [⟨code, u.id, now + 1000 * 60 * 20⟩] ∧
    ⟨code, u.id, now + 1000 * 60 * 20⟩ ∈
      (sendVerificationCodeRun now code .failure u codes).snd := by
  refine ⟨rfl, ?_⟩
  simp [sendVerificationCodeRun, prismaTransaction, sendCodeTxBody]

/-- C8: the one-active-code invariant — after an issuance (and after a second
issuance in succession, whatever each delivery outcome), the rows for the
account are exactly the single most recently inserted one: the transaction
deletes every row of the account before inserting the new one. -/
theorem C8_one_active_code (now1 now2 : Nat) (code1 code2 : String)
    (m1 m2 : MailOutcome) (u : User) (codes : List VerificationCode) :
    ((sendVerificationCodeRun now1 code1 m1 u codes).snd.filter
        (fun c => c.userId == u.id)) =
      [⟨code1, u.id, now1 + 1000 * 60 * 20⟩] ∧
    ((sendVerificationCodeRun now2 code2 m2 u
        (sendVerificationCodeRun now1 code1 m1 u codes).snd).snd.filter
        (fun c => c.userId == u.id)) =
      [⟨code2, u.id, now2 + 1000 * 60 * 20⟩] := by
  have key : ∀ (now : Nat) (code : String) (m : MailOutcome)
      (cs : List VerificationCode),
      ((sendVerificationCodeRun now code m u cs).snd.filter
        (fun c => c.userId == u.id)) =
        [⟨code, u.id, now + 1000 * 60 * 20⟩] := by
    intro now code m cs
    simp only [sendVerificationCodeRun, prismaTransaction, sendCodeTxBody]
    rw [List.filter_append]
    simp [List.filter_filter]
  exact ⟨key now1 code1 m1 codes, key now2 code2 m2 _⟩

/-- The Google upsert, when no account with the profile email exists,
returns and appends the created row. -/
theorem googleStrategyRun_of_find?_none (db : List User) (nextId : Nat)
    (e n : String) (hfind : db.find? (fun u => u.email == e) = none) :
    googleStrategyRun db nextId e n =
      (googleNewUser nextId e n, db ++ [googleNewUser nextId e n]) := by
  simp [googleStrategyRun, googleNewUser, hfind]

/-- C9: idempotence of the Google upsert — calling it twice with the same
profile email returns the same account both times, leaves the table of the
first call untouched (the second call's update object is `{}`), exactly one
account with that email exists afterward, and a pre-existing account is
returned with none of its fields modified. The precondition is Prisma's
unique-email invariant on the starting table. -/
theorem C9_google_upsert_idempotent (db : List User) (nextId1 nextId2 : Nat)
    (e n1 n2 : String)
    (hdup : (db.filter (fun u => u.email == e)).length ≤ 1) :
    ((googleStrategyRun (googleStrategyRun db nextId1 e n1).snd nextId2 e n2).fst =
      (googleStrategyRun db nextId1 e n1).fst) ∧
    ((googleStrategyRun (googleStrategyRun db nextId1 e n1).snd nextId2 e n2).snd =
      (googleStrategyRun db nextId1 e n1).snd) ∧
    (((googleStrategyRun db nextId1 e n1).snd.filter
        (fun u => u.email == e)).length = 1) ∧
    (∀ u0, db.find? (fun u => u.email == e) = some u0 →
      (googleStrategyRun db nextId1 e n1).fst = u0 ∧
      (googleStrategyRun db nextId1 e n1).snd = db) := by
  cases hfind : db.find? (fun u => u.email == e) with
  | some u0 =>
    have h1 : googleStrategyRun db nextId1 e n1 = (u0, db) := by
      simp [googleStrategyRun, hfind]
    have h2 : googleStrategyRun db nextId2 e n2 = (u0, db) := by
      simp [googleStrategyRun, hfind]
    have hp : (u0.email == e) = true := by
      have := List.find?_some hfind
      simpa using this
    have hmem : u0 ∈ db.filter (fun u => u.email == e) :=
      List.mem_filter.mpr ⟨List.mem_of_find?_eq_some hfind, hp⟩
    have hpos : 0 < (db.filter (fun u => u.email == e)).length :=
      List.length_pos_of_mem hmem
    refine ⟨?_, ?_, ?_, ?_⟩
    · rw [h1]
      simp [h2, h1]
    · rw [h1]
      simp [h2, h1]
    · rw [h1]
      show (db.filter (fun u => u.email == e)).length = 1
      omega
    · intro u0' h'
      cases h'
      exact ⟨by rw [h1], by rw [h1]⟩
  | none =>
    have h1 := googleStrategyRun_of_find?_none db nextId1 e n1 hfind
    have hfind2 : ((db ++ [googleNewUser nextId1 e n1]).find?
        (fun u => u.email == e)) = some (googleNewUser nextId1 e n1) := by
      rw [List.find?_append, hfind]
      simp [List.find?, googleNewUser]
    have h2 : googleStrategyRun (db ++ [googleNewUser nextId1 e n1]) nextId2 e n2 =
        (googleNewUser nextId1 e n1, db ++ [googleNewUser nextId1 e n1]) := by
      simp [googleStrategyRun, hfind2]
    have hnil : db.filter (fun u => u.email == e) = [] :=
      List.filter_eq_nil_iff.mpr (fun a ha => by
        simpa using List.find?_eq_none.mp hfind a ha)
    rw [h1]
    refine ⟨?_, ?_, ?_, ?_⟩
    · simp [h2]
    · simp [h2]
    · simp [List.filter_append, hnil, googleNewUser]
    · intro u0' h'
      exact Option.noConfusion h'

/-- Witness for C9 on the empty table (zero accounts with the email, so the
unique-email precondition holds). -/
theorem C9_google_upsert_idempotent_witness :
    ((googleStrategyRun (googleStrategyRun [] 5 "g@x.com" "A").snd 6 "g@x.com" "B").fst =
      (googleStrategyRun [] 5 "g@x.com" "A").fst) ∧
    ((googleStrategyRun (googleStrategyRun [] 5 "g@x.com" "A").snd 6 "g@x.com" "B").snd =
      (googleStrategyRun [] 5 "g@x.com" "A").snd) ∧
    ((((googleStrategyRun [] 5 "g@x.com" "A").snd.filter
        (fun u => u.email == "g@x.com")).length = 1)) ∧
    (∀ u0, ([] : List User).find? (fun u => u.email == "g@x.com") = some u0 →
      (googleStrategyRun [] 5 "g@x.com" "A").fst = u0 ∧
      (googleStrategyRun [] 5 "g@x.com" "A").snd = []) :=
  C9_google_upsert_idempotent [] 5 6 "g@x.com" "A" "B" (by decide)

end RemixAuth
